import Mathlib

/-!
# Verification of the energy-quote dashboard's data pipeline

Shallow embedding of the normalization / filtering / aggregation pipeline of
`src/app1.py` (function `load_data` and the dataframe manipulations of the
dashboard body).  Pandas dataframes are modelled as `List Record`; pandas /
Python string primitives (`str.replace`, `str.strip`, `str.title`,
`pd.to_numeric`) are modelled by executable Lean functions on `List Char`.
Prices are `Rat` (pandas floats carry exact decimal literals in every case the
claims exercise); a missing value (`NaN` / `NaT`) is `Option.none`.
-/

/-- Calendar dates are modelled by their ordinal number: only order matters. -/
abbrev Date := Int

/-- Python `str.strip()` on a character list: drop whitespace at both ends. -/
def stripChars (l : List Char) : List Char :=
  ((l.dropWhile Char.isWhitespace).reverse.dropWhile Char.isWhitespace).reverse

/-- Python `str.strip()` (as used by pandas `.str.strip()`). -/
def pyStrip (s : String) : String := ⟨stripChars s.data⟩

/-- Python `str.replace(pat, rep)` on character lists: replace every
non-overlapping occurrence of `pat`, scanning left to right.  An empty
pattern replaces nothing (the pipeline never uses one).  The `fuel`
argument makes the recursion structural; each step consumes at least one
character, so `fuel = l.length` is always enough. -/
def replaceAux (pat rep : List Char) : Nat → List Char → List Char
  | 0, l => l
  | _, [] => []
  | fuel + 1, c :: cs =>
    if pat ≠ [] ∧ pat.isPrefixOf (c :: cs) then
      rep ++ replaceAux pat rep fuel (cs.drop (pat.length - 1))
    else
      c :: replaceAux pat rep fuel cs

/-- Python `str.replace` on strings, as invoked by pandas
`.str.replace(..., regex=False)`. -/
def pyReplace (s pat rep : String) : String :=
  ⟨replaceAux pat.data rep.data s.data.length s.data⟩

/-- Numeric value of a digit character. -/
def digitVal (c : Char) : Nat := c.toNat - 48

/-- Value of a digit string read in base 10. -/
def digitsVal (l : List Char) : Nat := l.foldl (fun a c => 10 * a + digitVal c) 0

/-- Parse an unsigned decimal literal: digits with at most one decimal point,
at least one digit overall. -/
def parseUnsigned (l : List Char) : Option Rat :=
  match l.splitOn '.' with
  | [ip] =>
    if ip ≠ [] ∧ ip.all Char.isDigit then some ((digitsVal ip : Rat)) else none
  | [ip, fp] =>
    if (ip ≠ [] ∨ fp ≠ []) ∧ ip.all Char.isDigit ∧ fp.all Char.isDigit then
      some ((digitsVal ip : Rat) + (digitsVal fp : Rat) / ((10 : Rat) ^ fp.length))
    else none
  | _ => none

/-- `pd.to_numeric` on one cell (default `errors` policy: an unparsable string
is a raised error, modelled as `none`): tolerate surrounding whitespace and an
optional sign, then read a plain decimal literal. -/
def to_numeric (s : String) : Option Rat :=
  match stripChars s.data with
  | '-' :: u => (parseUnsigned u).map (fun q => -q)
  | '+' :: u => parseUnsigned u
  | u => parseUnsigned u

/-- The price-parsing chain of `load_data` step 3 (`src/app1.py:80-83`):
strip the `R$` symbol, drop thousands-separator dots, turn the decimal comma
into a dot, then `pd.to_numeric`. -/
def parse_price (s : String) : Option Rat :=
  to_numeric (pyReplace (pyReplace (pyReplace s "R$" "") "." "") "," ".")

/-- The energy-type replacement table of `load_data` step 2
(`src/app1.py:70-75`): pandas `Series.replace` matches whole cell values. -/
def replaceTipo (t : String) : String :=
  if t = "50" then "I50"
  else if t = "100" then "I100"
  else if t = "50.0" then "I50"
  else if t = "100.0" then "I100"
  else t

/-- Python `str(x)` applied to a possibly missing cell, as `astype(str)` does:
a missing value prints as `"nan"`. -/
def pyStrOfOpt : Option String → String
  | some s => s
  | none => "nan"

/-- Full energy-type normalization of `load_data` step 2: `astype(str)`,
`.str.strip()`, then the replacement table. -/
def canonTipo (o : Option String) : String := replaceTipo (pyStrip (pyStrOfOpt o))

/-- Python `str.title()`: uppercase the first letter of every alphabetic run,
lowercase the rest.  The flag records whether the previous char was a letter. -/
def titleChars : Bool → List Char → List Char
  | _, [] => []
  | prev, c :: cs =>
    if c.isAlpha then (if prev then c.toLower else c.toUpper) :: titleChars true cs
    else c :: titleChars false cs

/-- pandas `.str.title()`. -/
def pyTitle (s : String) : String := ⟨titleChars false s.data⟩

/-- `load_data` step 6 (`src/app1.py:94-98`): when the source has a
`modalidade` column its cells are stringified, stripped and title-cased;
otherwise the constant `"Atacadista"` is used. -/
def canonModalidade (hasCol : Bool) (o : Option String) : String :=
  if hasCol then pyTitle (pyStrip (pyStrOfOpt o)) else "Atacadista"

/-- `load_data` step 5 (`src/app1.py:91`): `fillna(0).astype(int)` — a missing
month becomes `0`, any present value is kept. -/
def coerceMes (o : Option Int) : Int :=
  match o with
  | none => 0
  | some v => v

/-- One canonical row after `load_data` (see spec §3 `QuoteRecord`).
`comercializadora` and `submercado` are untouched by `load_data` and so may be
missing; `tipo_energia` and `modalidade` go through `astype(str)` and are
always strings; `valor_cotacao` may be `NaN` when the source column is numeric
with missing cells; `data_cotacao` is missing when `pd.to_datetime(...,
errors='coerce')` produced `NaT`. -/
structure Record where
  comercializadora : Option String
  tipo_energia : String
  submercado : Option String
  modalidade : String
  ano_suprimento : Int
  mes_suprimento : Int
  valor_cotacao : Option Rat
  data_cotacao : Option Date
deriving DecidableEq, Repr

/-- One raw row as read by `pd.read_csv` / `pd.read_excel`, price column
apart (its representation depends on the column dtype, see `PriceCol`).
`data_cotacao` is the output of `pd.to_datetime(..., dayfirst=True,
errors='coerce')`: an unparsable source date is already `none`. -/
structure RawRecord where
  comercializadora : Option String
  tipo_energia : Option String
  submercado : Option String
  modalidade : Option String
  ano_suprimento : Int
  mes_suprimento : Option Int
  data_cotacao : Option Date
deriving DecidableEq, Repr

/-- The raw `valor_cotacao` column.  `load_data` step 3 branches on the pandas
dtype: an `object` column holds strings, a numeric column holds numbers with
possible `NaN`s. -/
inductive PriceCol where
  | textual (cells : List String)
  | numeric (cells : List (Option Rat))
deriving DecidableEq, Repr

/-- A raw table: rows plus the price column (aligned by position) and whether
the source had a `modalidade` column. -/
structure RawTable where
  rows : List RawRecord
  price : PriceCol
  hasModalidade : Bool
deriving DecidableEq, Repr

/-- `load_data` step 3 (`src/app1.py:78-83`): an `object` (textual) column is
string-replaced and fed to `pd.to_numeric` — one unparsable cell raises, which
the surrounding `try` turns into a failed load (`none`); a numeric column is
left untouched. -/
def convertPrice : PriceCol → Option (List (Option Rat))
  | .numeric cells => some cells
  | .textual cells => (cells.mapM parse_price).map (List.map some)

/-- Assemble one canonical record from a raw row and its converted price. -/
def normalizeRow (hasMod : Bool) (r : RawRecord) (p : Option Rat) : Record :=
  { comercializadora := r.comercializadora
    tipo_energia := canonTipo r.tipo_energia
    submercado := r.submercado
    modalidade := canonModalidade hasMod r.modalidade
    ano_suprimento := r.ano_suprimento
    mes_suprimento := coerceMes r.mes_suprimento
    valor_cotacao := p
    data_cotacao := r.data_cotacao }

/-- `load_data` (`src/app1.py:38-104`): normalize every column; any raised
parsing error (here: `pd.to_numeric` on a bad textual price) makes the whole
load return `None`.  Rows are never dropped. -/
def load_data (t : RawTable) : Option (List Record) :=
  match convertPrice t.price with
  | none => none
  | some prices => some (List.zipWith (normalizeRow t.hasModalidade) t.rows prices)

/-! ## Filter engine (`src/app1.py:140-213`) -/

/-- The sidebar selections feeding the filter.  `periodo` is `some (start,
end)` when `periodo_analise` is a well-formed 2-tuple, `none` otherwise.
`subs_sel` may contain `none` because `subs_disp = df['submercado'].unique()`
is taken without `dropna`, while `comerc_sel` cannot (`comerc_disp` drops
missing values before the multiselect). -/
structure Criteria where
  periodo : Option (Date × Date)
  anos_sel : List Int
  meses_sel : List Int
  subs_sel : List (Option String)
  tipos_sel : List String
  comerc_sel : List String
  mod_sel : List String
deriving DecidableEq, Repr

/-- `mask_data` (`src/app1.py:194-199`): inside a well-formed range the row's
date must satisfy both inclusive bounds — a missing date (`NaT`) compares
`False` on both sides, exactly as `NaN >= start_date` does in pandas;
otherwise the mask is all-`True`. -/
def mask_data (crit : Criteria) (r : Record) : Bool :=
  match crit.periodo with
  | some (s, e) =>
    match r.data_cotacao with
    | some d => decide (s ≤ d) && decide (d ≤ e)
    | none => false
  | none => true

/-- pandas `Series.isin` on a column that may hold `NaN`, against a value
list that holds none: a missing cell never matches. -/
def isinOpt (o : Option String) (sel : List String) : Bool :=
  match o with
  | some c => decide (c ∈ sel)
  | none => false

/-- One row of the conjunction of `src/app1.py:201-209`. -/
def passes (crit : Criteria) (r : Record) : Bool :=
  mask_data crit r
    && decide (r.ano_suprimento ∈ crit.anos_sel)
    && decide (r.mes_suprimento ∈ crit.meses_sel)
    && decide (r.submercado ∈ crit.subs_sel)
    && decide (r.tipo_energia ∈ crit.tipos_sel)
    && isinOpt r.comercializadora crit.comerc_sel
    && decide (r.modalidade ∈ crit.mod_sel)

/-- `df_filtered` (`src/app1.py:201-209`). -/
def df_filtered (rows : List Record) (crit : Criteria) : List Record :=
  rows.filter (passes crit)

/-- The sidebar's default selections (`src/app1.py:155-189`): every observed
value of each dimension (`comercializadora` after `dropna`; sorting and
uniqueness do not change membership, so plain `map`s model the option
lists) — except modality, where line 156 picks
`['Atacadista'] if 'Atacadista' in mod_disp else mod_disp`: the default is
just `"Atacadista"` whenever that value is observed. -/
def defaultCriteria (rows : List Record) (p : Option (Date × Date)) : Criteria :=
  { periodo := p
    anos_sel := rows.map Record.ano_suprimento
    meses_sel := rows.map Record.mes_suprimento
    subs_sel := rows.map Record.submercado
    tipos_sel := rows.map Record.tipo_energia
    comerc_sel := rows.filterMap Record.comercializadora
    mod_sel :=
      if "Atacadista" ∈ rows.map Record.modalidade then ["Atacadista"]
      else rows.map Record.modalidade }

/-! ## Best price per year (`gerar_linha_kpi`, `src/app1.py:240-299`) -/

/-- Minimum of a list of values (the non-`NaN` entries of a price column). -/
def listMin : List Rat → Option Rat
  | [] => none
  | x :: xs =>
    match listMin xs with
    | none => some x
    | some m => some (if x ≤ m then x else m)

/-- `Series.idxmin` followed by `.loc` (`src/app1.py:271-272`): the first row
whose price equals the minimum of the non-missing prices; `none` when every
price is missing (pandas would raise there). -/
def idxminRow (rows : List Record) : Option Record :=
  match listMin (rows.filterMap Record.valor_cotacao) with
  | none => none
  | some m => rows.find? (fun r => r.valor_cotacao = some m)

/-- The per-year cell of `gerar_linha_kpi` (`src/app1.py:269-272`): restrict
`df_sub` to the queried supply year; on a non-empty restriction take the
`idxmin` row. -/
def gerar_best (df_sub : List Record) (ano : Int) : Option Record :=
  if (df_sub.filter (fun r => r.ano_suprimento = ano)).isEmpty then none
  else idxminRow (df_sub.filter (fun r => r.ano_suprimento = ano))

/-! ## Chart deduplication (`df_graph`, `src/app1.py:345-350`) -/

/-- The `drop_duplicates` subset: `(ano_suprimento, data_cotacao)`. -/
def chartKey (r : Record) : Int × Option Date := (r.ano_suprimento, r.data_cotacao)

/-- pandas ascending `sort_values` comparison on a column with missing
values: ascending on present values, missing (`NaN`/`NaT`) last. -/
def naLastLe {α : Type} [LE α] [DecidableRel (α := α) (· ≤ ·)]
    (x y : Option α) : Bool :=
  match x, y with
  | _, none => true
  | none, some _ => false
  | some u, some v => decide (u ≤ v)

/-- `sort_values('valor_cotacao', ascending=True)` comparison: ascending by
price, missing prices (`NaN`) last. -/
def priceLe (a b : Record) : Bool :=
  naLastLe a.valor_cotacao b.valor_cotacao

/-- `sort_values('ano_suprimento', ascending=True)` comparison. -/
def anoLe (a b : Record) : Bool := decide (a.ano_suprimento ≤ b.ano_suprimento)

/-- pandas `drop_duplicates(subset, keep='first')`: keep a row iff its key
was not seen earlier in the list. -/
def dedupGo (seen : List (Int × Option Date)) : List Record → List Record
  | [] => []
  | r :: rs =>
    if chartKey r ∈ seen then dedupGo seen rs
    else r :: dedupGo (chartKey r :: seen) rs

/-- The chart pipeline of `src/app1.py:345-350`: sort ascending by price,
drop duplicate `(ano, data)` keys keeping the first (hence cheapest) row,
then sort ascending by supply year. -/
def dedupe_for_chart (rows : List Record) : List Record :=
  List.mergeSort (dedupGo [] (List.mergeSort rows priceLe)) anoLe

/-! ## Historical lookup (`df_hist`, `src/app1.py:464-469`) -/

/-- pandas `==` between cells that may be `NaN`: a missing value equals
nothing, itself included. -/
def eqOpt (a b : Option String) : Bool :=
  match a, b with
  | some x, some y => decide (x = y)
  | _, _ => false

/-- The product-key match of `src/app1.py:465-468`. -/
def tupleMatch (base r : Record) : Bool :=
  eqOpt r.comercializadora base.comercializadora
    && decide (r.tipo_energia = base.tipo_energia)
    && eqOpt r.submercado base.submercado
    && decide (r.ano_suprimento = base.ano_suprimento)

/-- `sort_values('data_cotacao')` comparison: ascending by date, missing
dates (`NaT`) last. -/
def dateLe (a b : Record) : Bool :=
  naLastLe a.data_cotacao b.data_cotacao

/-- `df_hist` (`src/app1.py:464-469`): filter the FULL dataset `df` — not
`df_filtered` — by the product key of `base_row`, then sort by quote date. -/
def df_hist (df : List Record) (base : Record) : List Record :=
  List.mergeSort (df.filter (tupleMatch base)) dateLe

/-! ## Per-(year, type) statistics (`src/app1.py:515-543`) -/

/-- `df_tipo` (`src/app1.py:515` and `:526`): the filtered view restricted to
one supply year, then one energy type. -/
def yearly_group (view : List Record) (ano : Int) (tipo : String) : List Record :=
  (view.filter (fun r => r.ano_suprimento = ano)).filter
    (fun r => r.tipo_energia = tipo)

/-- The non-missing prices of a group (pandas aggregations skip `NaN`). -/
def stdValues (rows : List Record) : List Rat := rows.filterMap Record.valor_cotacao

/-- The square of pandas `Series.std()` (default `ddof=1`): the sample
variance with `n − 1` denominator over the non-missing values, `none` when
fewer than two values exist (pandas returns `NaN` there: the `0/0` or empty
sum).  The standard deviation itself is the square root of this value; being
a square root it is `NaN`/zero exactly when this is `none`/zero, so
availability and zero-ness transfer. -/
def sampleVar (xs : List Rat) : Option Rat :=
  if xs.length < 2 then none
  else
    some ((xs.map (fun x => (x - xs.sum / (xs.length : Rat)) ^ 2)).sum
      / ((xs.length : Rat) - 1))

/-- `volatilidade` (`src/app1.py:536`): `df_tipo['valor_cotacao'].std()`,
displayed as `"--"` exactly when `pd.isna` holds, i.e. when this is `none`
(`src/app1.py:542`). -/
def volatilidade (view : List Record) (ano : Int) (tipo : String) : Option Rat :=
  sampleVar (stdValues (yearly_group view ano tipo))

/-! ## Concrete data for witnesses and counterexamples

The three-row scenario of spec §8 plus variants exercising missing values.
Dates are day ordinals: 10 ≈ 2026-01-10, 60 ≈ 2026-03-01, 375 ≈ 2027-01-10. -/

def rowA : Record :=
  ⟨some "CommA", "I50", some "SE", "Atacadista", 2026, 0, some 250, some 10⟩

def rowB : Record :=
  ⟨some "CommB", "I50", some "SE", "Atacadista", 2026, 0, some 230, some 60⟩

def rowC : Record :=
  ⟨some "CommA", "I50", some "SE", "Atacadista", 2027, 0, some 260, some 375⟩

/-- Same `(ano, data_cotacao)` key as `rowA`, cheaper price. -/
def rowD : Record :=
  ⟨some "CommB", "I50", some "SE", "Atacadista", 2026, 0, some 240, some 10⟩

/-- A row whose quote date failed to parse. -/
def rowN : Record :=
  ⟨some "CommA", "I50", some "SE", "Atacadista", 2026, 0, some 300, none⟩

def demoRows : List Record := [rowA, rowB, rowC]

/-- A retail-modality row. -/
def rowV : Record :=
  ⟨some "CommC", "I50", some "SE", "Varejo", 2026, 0, some 220, some 20⟩

/-- A dataset observing both modalities, so the sidebar's default modality
selection collapses to `["Atacadista"]`. -/
def demoRowsV : List Record := [rowA, rowV]

/-- A raw row with supply month 13, outside `[0, 12]`. -/
def raw13 : RawRecord :=
  ⟨some "CommA", some "I50", some "SE", some "Atacadista", 2026, some 13, some 10⟩

def T13 : RawTable := ⟨[raw13], .numeric [some 100], true⟩

/-- What `load_data` makes of `raw13`. -/
def rec13 : Record :=
  ⟨some "CommA", "I50", some "SE", "Atacadista", 2026, 13, some 100, some 10⟩

/-- A raw row with missing commercializer, submarket and (numeric) price. -/
def rawNull : RawRecord := ⟨none, some "50", none, none, 2026, some 1, some 10⟩

def TNull : RawTable := ⟨[rawNull], .numeric [none], false⟩

/-- What `load_data` makes of `rawNull`. -/
def recNull : Record := ⟨none, "I50", none, "Atacadista", 2026, 1, none, some 10⟩

/-- A fully specified criteria set with a well-formed date range. -/
def critDemo : Criteria :=
  ⟨some (0, 100), [2026, 2027], [0], [some "SE"], ["I50"],
    ["CommA", "CommB"], ["Atacadista"]⟩

/-! ## Theorems -/

/-- Every element of a `zipWith` comes from one element of each input list. -/
theorem mem_zipWith_exists {α β γ : Type} {f : α → β → γ} {c : γ} :
    ∀ {as : List α} {bs : List β},
      c ∈ List.zipWith f as bs → ∃ a ∈ as, ∃ b ∈ bs, c = f a b := by
  intro as
  induction as with
  | nil => intro bs h; simp at h
  | cons a as ih =>
    intro bs h
    cases bs with
    | nil => simp at h
    | cons b bs =>
      simp only [List.zipWith_cons_cons, List.mem_cons] at h
      rcases h with h | h
      · exact ⟨a, by simp, b, by simp, h⟩
      · rcases ih h with ⟨a', ha, b', hb, rfl⟩
        exact ⟨a', by simp [ha], b', by simp [hb], rfl⟩

/-- C2: price parsing applies, in order: strip the `R$` symbol, remove
thousands-separator dots, replace the decimal comma with a dot, then parse,
so `parse_price "R$ 1.234,56" = 1234.56`; and a `valor_cotacao` column that
is already numeric passes through the conversion step unchanged. -/
theorem parse_price_correct :
    parse_price "R$ 1.234,56" = some ((123456 : Rat) / 100) ∧
    ∀ cells : List (Option Rat),
      convertPrice (PriceCol.numeric cells) = some cells := by
  constructor
  · have h : parse_price "R$ 1.234,56"
        = some ((digitsVal ['1','2','3','4'] : Rat)
            + (digitsVal ['5','6'] : Rat) / (10 : Rat) ^ 2) := rfl
    have hd1 : digitsVal ['1','2','3','4'] = 1234 := by decide
    have hd2 : digitsVal ['5','6'] = 56 := by decide
    rw [h, hd1, hd2]; norm_num
  · intro cells; rfl

/-- C4: energy-type canonicalization, applied after stripping whitespace,
maps `"50"` and `"50.0"` to `"I50"`, `"100"` and `"100.0"` to `"I100"`, and
leaves every other (stripped) value unchanged, e.g. `"Convencional"`. -/
theorem canonTipo_correct :
    canonTipo (some "50") = "I50" ∧ canonTipo (some "50.0") = "I50" ∧
    canonTipo (some "100") = "I100" ∧ canonTipo (some "100.0") = "I100" ∧
    canonTipo (some "Convencional") = "Convencional" ∧
    ∀ s : String, pyStrip s ∉ (["50", "100", "50.0", "100.0"] : List String) →
      canonTipo (some s) = pyStrip s := by
  refine ⟨by decide, by decide, by decide, by decide, by decide, ?_⟩
  intro s h
  simp only [List.mem_cons, List.not_mem_nil, or_false, not_or] at h
  obtain ⟨h1, h2, h3, h4⟩ := h
  simp [canonTipo, pyStrOfOpt, replaceTipo, h1, h2, h3, h4]

/-- Witness for C4 at a value outside the replacement table. -/
theorem canonTipo_witness :
    canonTipo (some " Incentivada ") = pyStrip " Incentivada " :=
  canonTipo_correct.2.2.2.2.2 " Incentivada " (by decide)

/-- Membership in `df_filtered` unfolded into the date conjunct and the six
set-membership conjuncts. -/
theorem mem_df_filtered (rows : List Record) (crit : Criteria) (r : Record) :
    r ∈ df_filtered rows crit ↔
      r ∈ rows ∧ mask_data crit r = true ∧
      r.ano_suprimento ∈ crit.anos_sel ∧ r.mes_suprimento ∈ crit.meses_sel ∧
      r.submercado ∈ crit.subs_sel ∧ r.tipo_energia ∈ crit.tipos_sel ∧
      isinOpt r.comercializadora crit.comerc_sel = true ∧
      r.modalidade ∈ crit.mod_sel := by
  simp only [df_filtered, List.mem_filter, passes, Bool.and_eq_true,
    decide_eq_true_eq]
  tauto

/-- Counterexample to C3's defaults clause: under the program's default
sidebar selections, the membership sets do NOT all default to "all observed
values" — `rowV`'s modality `"Varejo"` is an observed value and the row
passes the (absent) date criterion, yet the row is excluded because the
default modality selection collapses to `["Atacadista"]`
(`src/app1.py:156`). -/
theorem df_filtered_default_counterexample :
    rowV ∈ demoRowsV ∧
    rowV.modalidade ∈ demoRowsV.map Record.modalidade ∧
    mask_data (defaultCriteria demoRowsV none) rowV = true ∧
    rowV ∉ df_filtered demoRowsV (defaultCriteria demoRowsV none) := by decide

/-- C3 as amended: a record is in the filtered view iff it satisfies the
date-range criterion AND all six set-membership predicates.  When the
membership sets are the sidebar defaults, the year, month, submarket,
energy-type and commercializer sets are all observed (for commercializer:
non-missing observed) values, so for a row of the dataset with a
non-missing commercializer membership reduces to the date criterion —
except that the default modality selection is `["Atacadista"]` whenever
that modality is observed, in which case the row must additionally be an
`"Atacadista"` one (only when `"Atacadista"` is not observed does the
modality set too default to all observed values). -/
theorem df_filtered_correct (rows : List Record) (crit : Criteria) (r : Record) :
    (r ∈ df_filtered rows crit ↔
      r ∈ rows ∧ mask_data crit r = true ∧
      r.ano_suprimento ∈ crit.anos_sel ∧ r.mes_suprimento ∈ crit.meses_sel ∧
      r.submercado ∈ crit.subs_sel ∧ r.tipo_energia ∈ crit.tipos_sel ∧
      isinOpt r.comercializadora crit.comerc_sel = true ∧
      r.modalidade ∈ crit.mod_sel) ∧
    (∀ p, r ∈ rows → r.comercializadora.isSome →
      ("Atacadista" ∉ rows.map Record.modalidade →
        (r ∈ df_filtered rows (defaultCriteria rows p) ↔
          mask_data (defaultCriteria rows p) r = true)) ∧
      ("Atacadista" ∈ rows.map Record.modalidade →
        (r ∈ df_filtered rows (defaultCriteria rows p) ↔
          mask_data (defaultCriteria rows p) r = true ∧
          r.modalidade = "Atacadista"))) := by
  refine ⟨mem_df_filtered rows crit r, ?_⟩
  intro p hr hc
  obtain ⟨c, hcs⟩ := Option.isSome_iff_exists.mp hc
  have hisin : isinOpt r.comercializadora
      (defaultCriteria rows p).comerc_sel = true := by
    simp only [defaultCriteria, isinOpt, hcs, decide_eq_true_eq]
    exact List.mem_filterMap.mpr ⟨r, hr, hcs⟩
  constructor
  · intro hnot
    rw [mem_df_filtered]
    constructor
    · rintro ⟨_, hm, _⟩; exact hm
    · intro hm
      refine ⟨hr, hm, List.mem_map_of_mem _ hr, List.mem_map_of_mem _ hr,
        List.mem_map_of_mem _ hr, List.mem_map_of_mem _ hr, hisin, ?_⟩
      simp only [defaultCriteria]
      rw [if_neg hnot]
      exact List.mem_map_of_mem _ hr
  · intro hyes
    rw [mem_df_filtered]
    constructor
    · rintro ⟨_, hm, _, _, _, _, _, hmod⟩
      refine ⟨hm, ?_⟩
      simp only [defaultCriteria] at hmod
      rw [if_pos hyes] at hmod
      simpa using hmod
    · rintro ⟨hm, hmod⟩
      refine ⟨hr, hm, List.mem_map_of_mem _ hr, List.mem_map_of_mem _ hr,
        List.mem_map_of_mem _ hr, List.mem_map_of_mem _ hr, hisin, ?_⟩
      simp only [defaultCriteria]
      rw [if_pos hyes]
      simp [hmod]

/-- Witness for amended C3: on a dataset observing both modalities, the
retail row `rowV`'s default-filter membership follows the two modality
cases (here the `"Atacadista"`-observed one applies and excludes it). -/
theorem df_filtered_witness :
    ("Atacadista" ∉ demoRowsV.map Record.modalidade →
      (rowV ∈ df_filtered demoRowsV (defaultCriteria demoRowsV none) ↔
        mask_data (defaultCriteria demoRowsV none) rowV = true)) ∧
    ("Atacadista" ∈ demoRowsV.map Record.modalidade →
      (rowV ∈ df_filtered demoRowsV (defaultCriteria demoRowsV none) ↔
        mask_data (defaultCriteria demoRowsV none) rowV = true ∧
        rowV.modalidade = "Atacadista")) :=
  (df_filtered_correct demoRowsV (defaultCriteria demoRowsV none) rowV).2
    none (by decide) (by decide)

/-- C10: a record whose quote date failed to parse is excluded from the
filtered view whenever a well-formed two-sided date range is active, but
with no date restriction (malformed or absent range) it is retained subject
only to the six membership predicates. -/
theorem missing_date_filter (rows : List Record) (crit : Criteria) (r : Record)
    (hmiss : r.data_cotacao = none) :
    (∀ se, crit.periodo = some se → r ∉ df_filtered rows crit) ∧
    (crit.periodo = none →
      (r ∈ df_filtered rows crit ↔
        r ∈ rows ∧
        r.ano_suprimento ∈ crit.anos_sel ∧ r.mes_suprimento ∈ crit.meses_sel ∧
        r.submercado ∈ crit.subs_sel ∧ r.tipo_energia ∈ crit.tipos_sel ∧
        isinOpt r.comercializadora crit.comerc_sel = true ∧
        r.modalidade ∈ crit.mod_sel)) := by
  constructor
  · rintro ⟨s, e⟩ hp hin
    rw [mem_df_filtered] at hin
    obtain ⟨_, hm, _⟩ := hin
    simp [mask_data, hp, hmiss] at hm
  · intro hp
    rw [mem_df_filtered]
    simp [mask_data, hp]

/-- Witness for C10: the missing-date row `rowN` is excluded under
`critDemo`'s date range. -/
theorem missing_date_witness : rowN ∉ df_filtered [rowN] critDemo :=
  (missing_date_filter [rowN] critDemo rowN (by decide)).1 (0, 100) (by decide)

/-- Counterexample to C7: `load_data` accepts a supply month of 13 —
`fillna(0).astype(int)` performs no range check, so an out-of-range source
value is neither rejected nor flagged. -/
theorem mes_range_counterexample :
    load_data T13 = some [rec13] ∧ rec13.mes_suprimento = 13 ∧
    ¬(rec13.mes_suprimento ≤ 12) := by decide

/-- C7 as amended: after normalization `mes_suprimento` is exactly
`fillna(0).astype(int)` of the source value — a missing month becomes `0`
and any present value passes through unchanged, with no `[0, 12]` range
enforcement. -/
theorem coerceMes_correct :
    (∀ t ds, load_data t = some ds →
      ∀ r ∈ ds, ∃ raw ∈ t.rows, r.mes_suprimento = coerceMes raw.mes_suprimento) ∧
    coerceMes none = 0 ∧ (∀ v : Int, coerceMes (some v) = v) := by
  refine ⟨?_, rfl, fun _ => rfl⟩
  intro t ds h r hr
  unfold load_data at h
  cases hp : convertPrice t.price with
  | none => rw [hp] at h; cases h
  | some prices =>
    rw [hp] at h
    injection h with h
    subst h
    rcases mem_zipWith_exists hr with ⟨raw, hraw, p, hpmem, rfl⟩
    exact ⟨raw, hraw, rfl⟩

/-- Witness for amended C7: the normalized month of `raw13` is its coerced
source value. -/
theorem coerceMes_witness :
    ∃ raw ∈ T13.rows, rec13.mes_suprimento = coerceMes raw.mes_suprimento :=
  coerceMes_correct.1 T13 [rec13] (by decide) rec13 (by decide)

/-- Counterexample to C8: `load_data` returns a dataset containing a row
whose commercializer, submarket and quote price are all missing — nothing
drops such rows and the load does not fail. -/
theorem required_fields_counterexample :
    load_data TNull = some [recNull] ∧ recNull.comercializadora = none ∧
    recNull.submercado = none ∧ recNull.valor_cotacao = none := by decide

/-- C8 as amended: normalization passes `comercializadora` and `submercado`
through unchanged (possibly missing) and drops no row; only the price column
is guarded — when it is textual, a successful load has every `valor_cotacao`
parsed (non-missing), an unparsable cell failing the whole load instead. -/
theorem load_data_passthrough (t : RawTable) (ds : List Record)
    (h : load_data t = some ds) :
    (∀ r ∈ ds, ∃ raw ∈ t.rows,
      r.comercializadora = raw.comercializadora ∧
      r.submercado = raw.submercado) ∧
    (∀ cells, t.price = PriceCol.textual cells →
      ∀ r ∈ ds, r.valor_cotacao.isSome) := by
  unfold load_data at h
  cases hp : convertPrice t.price with
  | none => rw [hp] at h; cases h
  | some prices =>
    rw [hp] at h
    injection h with h
    subst h
    constructor
    · intro r hr
      rcases mem_zipWith_exists hr with ⟨raw, hraw, p, hpmem, rfl⟩
      exact ⟨raw, hraw, rfl, rfl⟩
    · intro cells hcell r hr
      rcases mem_zipWith_exists hr with ⟨raw, hraw, p, hpmem, rfl⟩
      rw [hcell] at hp
      simp only [convertPrice, Option.map_eq_some'] at hp
      rcases hp with ⟨ys, _, rfl⟩
      rcases List.mem_map.mp hpmem with ⟨y, _, rfl⟩
      rfl

/-- Witness for amended C8: the null fields of `recNull` are the untouched
null fields of `rawNull`. -/
theorem load_data_witness :
    ∃ raw ∈ TNull.rows,
      recNull.comercializadora = raw.comercializadora ∧
      recNull.submercado = raw.submercado :=
  (load_data_passthrough TNull [recNull] (by decide)).1 recNull (by decide)

/-- C9: the per-(year, type) volatility is the sample standard deviation
(`ddof = 1`, i.e. `n − 1` denominator, here stated on its square, of which
it is the monotone square root); a group with fewer than 2 records reports
it as unavailable (`"--"`), never as zero and never as an error. -/
theorem volatilidade_correct (view : List Record) (ano : Int) (tipo : String) :
    ((yearly_group view ano tipo).length < 2 →
      volatilidade view ano tipo = none ∧ volatilidade view ano tipo ≠ some 0) ∧
    (∀ v, volatilidade view ano tipo = some v →
      2 ≤ (stdValues (yearly_group view ano tipo)).length ∧
      v = ((stdValues (yearly_group view ano tipo)).map
            (fun x => (x - (stdValues (yearly_group view ano tipo)).sum
              / ((stdValues (yearly_group view ano tipo)).length : Rat)) ^ 2)).sum
          / (((stdValues (yearly_group view ano tipo)).length : Rat) - 1)) := by
  have hlenle : (stdValues (yearly_group view ano tipo)).length
      ≤ (yearly_group view ano tipo).length := List.length_filterMap_le _ _
  constructor
  · intro hlen
    have hx : (stdValues (yearly_group view ano tipo)).length < 2 :=
      lt_of_le_of_lt hlenle hlen
    have hnone : volatilidade view ano tipo = none := by
      unfold volatilidade sampleVar
      rw [if_pos hx]
    exact ⟨hnone, by simp [hnone]⟩
  · intro v hv
    unfold volatilidade sampleVar at hv
    by_cases hx : (stdValues (yearly_group view ano tipo)).length < 2
    · rw [if_pos hx] at hv; cases hv
    · rw [if_neg hx] at hv
      injection hv with hv
      exact ⟨Nat.not_lt.mp hx, hv.symm⟩

/-- Witness for C9 on a one-record group. -/
theorem volatilidade_witness :
    volatilidade [rowA] 2026 "I50" = none ∧
    volatilidade [rowA] 2026 "I50" ≠ some 0 :=
  (volatilidade_correct [rowA] 2026 "I50").1 (by decide)

/-- `listMin` is `none` exactly on the empty list. -/
theorem listMin_eq_none {xs : List Rat} : listMin xs = none ↔ xs = [] := by
  cases xs with
  | nil => simp [listMin]
  | cons x xs => cases h : listMin xs <;> simp [listMin, h]

/-- `listMin` returns a member that bounds every element from below. -/
theorem listMin_spec :
    ∀ {xs : List Rat} {m : Rat}, listMin xs = some m →
      m ∈ xs ∧ ∀ y ∈ xs, m ≤ y := by
  intro xs
  induction xs with
  | nil => intro m h; cases h
  | cons x xs ih =>
    intro m h
    cases hx : listMin xs with
    | none =>
      have hnil : xs = [] := listMin_eq_none.mp hx
      subst hnil
      simp only [listMin] at h
      injection h with h; subst h
      exact ⟨List.mem_cons_self _ _, by intro y hy; simp at hy; simp [hy]⟩
    | some m' =>
      simp only [listMin, hx] at h
      obtain ⟨hm', hmin⟩ := ih hx
      by_cases hle : x ≤ m'
      · rw [if_pos hle] at h
        injection h with h; subst h
        refine ⟨List.mem_cons_self _ _, ?_⟩
        intro y hy
        rcases List.mem_cons.mp hy with rfl | hy
        · exact le_refl _
        · exact le_trans hle (hmin y hy)
      · rw [if_neg hle] at h
        injection h with h; subst h
        refine ⟨List.mem_cons_of_mem _ hm', ?_⟩
        intro y hy
        rcases List.mem_cons.mp hy with rfl | hy
        · exact le_of_lt (lt_of_not_le hle)
        · exact hmin y hy

/-- A successful `find?` splits its list at the first hit: everything before
it fails the predicate. -/
theorem find?_decomp {α : Type} {p : α → Bool} :
    ∀ {l : List α} {r : α}, l.find? p = some r →
      p r = true ∧ ∃ l1 l2, l = l1 ++ r :: l2 ∧ ∀ s ∈ l1, p s = false := by
  intro l
  induction l with
  | nil => intro r h; cases h
  | cons x xs ih =>
    intro r h
    cases hx : p x with
    | true =>
      rw [List.find?_cons_of_pos _ hx] at h
      injection h with h; subst h
      exact ⟨hx, [], xs, rfl, by simp⟩
    | false =>
      rw [List.find?_cons_of_neg _ (by simp [hx])] at h
      obtain ⟨hp, l1, l2, heq, hall⟩ := ih h
      refine ⟨hp, x :: l1, l2, by rw [heq]; rfl, ?_⟩
      intro s hs
      rcases List.mem_cons.mp hs with rfl | hs
      · exact hx
      · exact hall s hs

/-- C1: best-price selection for a queried year returns a row of the view
with that exact supply year whose price is the minimum `valor_cotacao` over
that year's rows, and — among ties — the first-occurring row in the
underlying data order (nothing before it in the year-filtered list attains
the minimum). -/
theorem gerar_best_correct (df_sub : List Record) (ano : Int) (r : Record)
    (h : gerar_best df_sub ano = some r) :
    r.ano_suprimento = ano ∧ r ∈ df_sub ∧
    ∃ m, r.valor_cotacao = some m ∧
      (∀ s ∈ df_sub, s.ano_suprimento = ano →
        ∀ v, s.valor_cotacao = some v → m ≤ v) ∧
      ∃ l1 l2,
        df_sub.filter (fun s => s.ano_suprimento = ano) = l1 ++ r :: l2 ∧
        ∀ s ∈ l1, s.valor_cotacao ≠ some m := by
  unfold gerar_best at h
  split at h
  · cases h
  · unfold idxminRow at h
    cases hm : listMin ((df_sub.filter
        (fun r => r.ano_suprimento = ano)).filterMap Record.valor_cotacao) with
    | none => rw [hm] at h; cases h
    | some m =>
      rw [hm] at h
      obtain ⟨hpr, l1, l2, heq, hall⟩ := find?_decomp h
      have hrr : r.valor_cotacao = some m := by simpa using hpr
      have hrsub : r ∈ df_sub.filter (fun s => s.ano_suprimento = ano) := by
        rw [heq]; exact List.mem_append_right _ (List.mem_cons_self _ _)
      have hmem := List.mem_filter.mp hrsub
      obtain ⟨hm_mem, hmin⟩ := listMin_spec hm
      refine ⟨by simpa using hmem.2, hmem.1, m, hrr, ?_, l1, l2, heq, ?_⟩
      · intro s hs hano v hv
        have hssub : s ∈ df_sub.filter (fun s => s.ano_suprimento = ano) :=
          List.mem_filter.mpr ⟨hs, by simpa using hano⟩
        exact hmin v (List.mem_filterMap.mpr ⟨s, hssub, hv⟩)
      · intro s hsl1
        simpa using hall s hsl1

/-- Witness for C1 on the spec §8 scenario: for year 2026 the cheaper
`rowB` (230.00) wins over `rowA` (250.00). -/
theorem gerar_best_witness :
    rowB.ano_suprimento = 2026 ∧ rowB ∈ demoRows ∧
    ∃ m, rowB.valor_cotacao = some m ∧
      (∀ s ∈ demoRows, s.ano_suprimento = 2026 →
        ∀ v, s.valor_cotacao = some v → m ≤ v) ∧
      ∃ l1 l2,
        demoRows.filter (fun s => s.ano_suprimento = 2026) = l1 ++ rowB :: l2 ∧
        ∀ s ∈ l1, s.valor_cotacao ≠ some m :=
  gerar_best_correct demoRows 2026 rowB (by decide)

/-- The missing-last comparison is reflexive. -/
theorem naLastLe_refl {α : Type} [LinearOrder α] (x : Option α) :
    naLastLe x x = true := by
  cases x <;> simp [naLastLe]

/-- The missing-last comparison is transitive. -/
theorem naLastLe_trans {α : Type} [LinearOrder α] (x y z : Option α)
    (h1 : naLastLe x y = true) (h2 : naLastLe y z = true) :
    naLastLe x z = true := by
  cases x <;> cases y <;> cases z <;> simp_all [naLastLe]
  exact le_trans h1 h2

/-- The missing-last comparison is total. -/
theorem naLastLe_total {α : Type} [LinearOrder α] (x y : Option α) :
    (naLastLe x y || naLastLe y x) = true := by
  cases x <;> cases y <;> simp [naLastLe, le_total]

/-- `dateLe` is transitive. -/
theorem dateLe_trans (a b c : Record) (h1 : dateLe a b) (h2 : dateLe b c) :
    dateLe a c := naLastLe_trans _ _ _ h1 h2

/-- `dateLe` is total. -/
theorem dateLe_total (a b : Record) : (dateLe a b || dateLe b a) = true :=
  naLastLe_total _ _

/-- C5: the historical drill-down for a best record consists of exactly the
rows of the full unfiltered dataset matching its (commercializer, type,
submarket, year) key — a permutation of the key-filtered dataset, with
membership independent of any active filter criteria — sorted ascending by
quote date (missing dates last). -/
theorem df_hist_correct (df : List Record) (base : Record) :
    List.Perm (df_hist df base) (df.filter (tupleMatch base)) ∧
    (∀ r, r ∈ df_hist df base ↔ r ∈ df ∧ tupleMatch base r = true) ∧
    List.Pairwise (fun a b => dateLe a b = true) (df_hist df base) := by
  refine ⟨List.mergeSort_perm _ _, ?_, ?_⟩
  · intro r
    simp [df_hist, List.mem_filter]
  · exact List.sorted_mergeSort dateLe_trans dateLe_total
      (df.filter (tupleMatch base))

/-- `priceLe` is reflexive. -/
theorem priceLe_refl (a : Record) : priceLe a a = true := naLastLe_refl _

/-- `priceLe` is transitive. -/
theorem priceLe_trans (a b c : Record) (h1 : priceLe a b) (h2 : priceLe b c) :
    priceLe a c := naLastLe_trans _ _ _ h1 h2

/-- `priceLe` is total. -/
theorem priceLe_total (a b : Record) : (priceLe a b || priceLe b a) = true :=
  naLastLe_total _ _

/-- `anoLe` is transitive. -/
theorem anoLe_trans (a b c : Record) (h1 : anoLe a b) (h2 : anoLe b c) :
    anoLe a c := by
  simp only [anoLe, decide_eq_true_eq] at *
  omega

/-- `anoLe` is total. -/
theorem anoLe_total (a b : Record) : (anoLe a b || anoLe b a) = true := by
  simp only [anoLe, Bool.or_eq_true, decide_eq_true_eq]
  omega

/-- `dedupGo` only returns rows of its input. -/
theorem dedupGo_subset :
    ∀ (seen : List (Int × Option Date)) (l : List Record) (r : Record),
      r ∈ dedupGo seen l → r ∈ l := by
  intro seen l
  induction l generalizing seen with
  | nil => intro r h; simp [dedupGo] at h
  | cons x xs ih =>
    intro r h
    simp only [dedupGo] at h
    by_cases hx : chartKey x ∈ seen
    · rw [if_pos hx] at h
      exact List.mem_cons_of_mem _ (ih seen r h)
    · rw [if_neg hx] at h
      rcases List.mem_cons.mp h with rfl | h
      · exact List.mem_cons_self _ _
      · exact List.mem_cons_of_mem _ (ih _ r h)

/-- `dedupGo` never returns a row whose key was already seen. -/
theorem dedupGo_key_notMem :
    ∀ (seen : List (Int × Option Date)) (l : List Record) (r : Record),
      r ∈ dedupGo seen l → chartKey r ∉ seen := by
  intro seen l
  induction l generalizing seen with
  | nil => intro r h; simp [dedupGo] at h
  | cons x xs ih =>
    intro r h
    simp only [dedupGo] at h
    by_cases hx : chartKey x ∈ seen
    · rw [if_pos hx] at h
      exact ih seen r h
    · rw [if_neg hx] at h
      rcases List.mem_cons.mp h with rfl | h
      · exact hx
      · intro hc
        exact ih _ r h (List.mem_cons_of_mem _ hc)

/-- When key `k` occurs in the list (and was not seen before), exactly one
row with key `k` survives `dedupGo`. -/
theorem dedupGo_countP_eq_one (k : Int × Option Date) :
    ∀ (seen : List (Int × Option Date)) (l : List Record), k ∉ seen →
      (∃ r ∈ l, chartKey r = k) →
      List.countP (fun r => decide (chartKey r = k)) (dedupGo seen l) = 1 := by
  intro seen l
  induction l generalizing seen with
  | nil =>
    rintro hk ⟨r, hr, _⟩
    simp at hr
  | cons x xs ih =>
    intro hk hex
    simp only [dedupGo]
    by_cases hx : chartKey x ∈ seen
    · rw [if_pos hx]
      rcases hex with ⟨r, hr, hkr⟩
      rcases List.mem_cons.mp hr with rfl | hr
      · exact absurd (hkr ▸ hx) hk
      · exact ih seen hk ⟨r, hr, hkr⟩
    · rw [if_neg hx]
      by_cases hxk : chartKey x = k
      · rw [List.countP_cons]
        have h0 : List.countP (fun r => decide (chartKey r = k))
            (dedupGo (chartKey x :: seen) xs) = 0 := by
          rw [List.countP_eq_zero]
          intro r hr
          simp only [decide_eq_true_eq]
          intro hc
          apply dedupGo_key_notMem _ _ _ hr
          rw [hc, ← hxk]
          exact List.mem_cons_self _ _
        rw [h0]
        simp [hxk]
      · rw [List.countP_cons]
        have hpx : (decide (chartKey x = k)) = false := by simp [hxk]
        rw [hpx]
        simp only [Bool.false_eq_true, if_false, Nat.add_zero]
        rcases hex with ⟨r, hr, hkr⟩
        rcases List.mem_cons.mp hr with rfl | hr
        · exact absurd hkr hxk
        · apply ih
          · intro hc
            rcases List.mem_cons.mp hc with h | h
            · exact hxk h.symm
            · exact hk h
          · exact ⟨r, hr, hkr⟩

/-- On a price-sorted list, every survivor of `dedupGo` has a price at most
that of any input row sharing its key. -/
theorem dedupGo_min :
    ∀ (l : List Record), List.Pairwise (fun a b => priceLe a b = true) l →
      ∀ (seen : List (Int × Option Date)) (r : Record), r ∈ dedupGo seen l →
        ∀ s ∈ l, chartKey s = chartKey r → priceLe r s = true := by
  intro l
  induction l with
  | nil => intro _ seen r h; simp [dedupGo] at h
  | cons x xs ih =>
    intro hpw seen r hr s hs hks
    obtain ⟨hx_all, hpw_tail⟩ := List.pairwise_cons.mp hpw
    simp only [dedupGo] at hr
    by_cases hx : chartKey x ∈ seen
    · rw [if_pos hx] at hr
      rcases List.mem_cons.mp hs with rfl | hs
      · exact absurd (hks ▸ hx) (dedupGo_key_notMem _ _ _ hr)
      · exact ih hpw_tail seen r hr s hs hks
    · rw [if_neg hx] at hr
      rcases List.mem_cons.mp hr with rfl | hr
      · rcases List.mem_cons.mp hs with rfl | hs
        · exact priceLe_refl _
        · exact hx_all s hs
      · have hkr_ne : chartKey r ≠ chartKey x := by
          intro hc
          exact dedupGo_key_notMem _ _ _ hr (hc ▸ List.mem_cons_self _ _)
        rcases List.mem_cons.mp hs with rfl | hs
        · exact absurd hks.symm hkr_ne
        · exact ih hpw_tail _ r hr s hs hks

/-- C6: in the chart pipeline, for every `(supply_year, quote_date)` key
present in the input exactly one row survives; every survivor is an input
row whose price is lowest within its key group; and the output is sorted
ascending by supply year. -/
theorem dedupe_for_chart_correct (rows : List Record) (k : Int × Option Date)
    (hk : ∃ r ∈ rows, chartKey r = k) :
    List.Pairwise (fun a b => anoLe a b = true) (dedupe_for_chart rows) ∧
    List.countP (fun r => decide (chartKey r = k)) (dedupe_for_chart rows) = 1 ∧
    (∀ r ∈ dedupe_for_chart rows, chartKey r = k →
      r ∈ rows ∧ ∀ s ∈ rows, chartKey s = chartKey r → priceLe r s = true) := by
  have hperm1 : List.Perm (List.mergeSort rows priceLe) rows :=
    List.mergeSort_perm _ _
  have hsorted : List.Pairwise (fun a b => priceLe a b = true)
      (List.mergeSort rows priceLe) :=
    List.sorted_mergeSort priceLe_trans priceLe_total rows
  refine ⟨List.sorted_mergeSort anoLe_trans anoLe_total _, ?_, ?_⟩
  · have hperm2 :=
      List.mergeSort_perm (dedupGo [] (List.mergeSort rows priceLe)) anoLe
    rw [dedupe_for_chart, hperm2.countP_eq]
    apply dedupGo_countP_eq_one k [] (List.mergeSort rows priceLe) (by simp)
    rcases hk with ⟨r, hr, hkr⟩
    exact ⟨r, hperm1.mem_iff.mpr hr, hkr⟩
  · intro r hrmem hkr
    have hr_d : r ∈ dedupGo [] (List.mergeSort rows priceLe) := by
      simpa [dedupe_for_chart, List.mem_mergeSort] using hrmem
    have hr_l1 : r ∈ List.mergeSort rows priceLe := dedupGo_subset _ _ _ hr_d
    refine ⟨hperm1.mem_iff.mp hr_l1, ?_⟩
    intro s hs hksr
    exact dedupGo_min _ hsorted [] r hr_d s (hperm1.mem_iff.mpr hs) hksr

/-- Witness for C6: two rows share the key (2026, day 10) with prices
250.00 (`rowA`) and 240.00 (`rowD`); exactly one survivor carries that key
and it is price-minimal in its group. -/
theorem dedupe_for_chart_witness :
    List.Pairwise (fun a b => anoLe a b = true)
      (dedupe_for_chart [rowA, rowD, rowB]) ∧
    List.countP (fun r => decide (chartKey r = ((2026 : Int), some (10 : Date))))
      (dedupe_for_chart [rowA, rowD, rowB]) = 1 ∧
    (∀ r ∈ dedupe_for_chart [rowA, rowD, rowB],
      chartKey r = ((2026 : Int), some (10 : Date)) →
      r ∈ [rowA, rowD, rowB] ∧
      ∀ s ∈ [rowA, rowD, rowB], chartKey s = chartKey r → priceLe r s = true) :=
  dedupe_for_chart_correct [rowA, rowD, rowB] ((2026 : Int), some (10 : Date))
    ⟨rowA, by decide, by decide⟩
